import Mathlib

/- Shallow embedding of `canonical-sphinx-extensions/config-options-custom/__init__.py`.

   Conventions of the embedding:
   * docutils/Sphinx host objects are reduced to the data this extension puts
     into them; calls to `logger.warning` are modelled as an explicit list of
     warning strings in each operation's result.
   * Python strings are Lean `String`s.  Python's string order (code-point
     lexicographic) is modelled by `listCharLe` on `String.data`, and Python's
     single-character substring test `":" in s` by `containsChar ':' s.data`.
   * Python's stable ascending `sorted` is modelled by `List.insertionSort`
     with a reflexive total preorder (Mathlib's `insertionSort` is stable, so
     it computes the same list as any stable ascending sort).
-/

/-- An entry of `ConfigDomain.data["config_options"]`: the 6-tuple
`(key, key, "option", docname, scope + ":" + key, 0)` appended by
`ConfigDomain.add_option`.  Field names follow the Sphinx object-tuple
convention `(name, dispname, type, docname, anchor, priority)`. -/
structure Record where
  name : String
  dispname : String
  typ : String
  docname : String
  anchor : String
  priority : Nat
  deriving DecidableEq, Repr

/-- `ConfigDomain.add_option(key, scope)`: appends
`(key, key, "option", self.env.docname, scope + ":" + key, 0)` to
`self.data["config_options"]`. -/
def ConfigDomain.add_option (registry : List Record) (docname key scope : String) :
    List Record :=
  registry ++ [⟨key, key, "option", docname, scope ++ ":" ++ key, 0⟩]

/-- `ConfigDomain.merge_domaindata`: append each record of `otherdata` that is
not already present, checking membership against the list as it grows. -/
def ConfigDomain.merge_domaindata (data otherdata : List Record) : List Record :=
  otherdata.foldl (fun acc opt => if opt ∈ acc then acc else acc ++ [opt]) data

/-- The ordered field-to-label table `ConfigOption.optional_fields` (dict
iterated in declaration order). -/
def optional_fields : List (String × String) :=
  [("unit", "Unit type"),
   ("category_id", "Category ID"),
   ("certification-status", "Status"),
   ("purpose", "Purpose"),
   ("steps", "Steps"),
   ("verification", "Verification"),
   ("description", "Description"),
   ("after-suspend", "After-suspend"),
   ("environ", "Environment variable"),
   ("user", "User"),
   ("plugin", "Plugin"),
   ("requires", "Requires"),
   ("template-id", "From template"),
   ("template-summary", "Template summary"),
   ("template-description", "Template description"),
   ("template-resource", "Template resource"),
   ("template-filter", "Template filter"),
   ("value-type", "Value type"),
   ("value-units", "Value units"),
   ("resource-key", "Resource key"),
   ("prompt", "Prompt")]

/-- `ConfigOption.shortdesc_key`. -/
def shortdesc_key : String := "summary"

/-- `ConfigOption.has_id_repeat`. -/
def has_id_repeat : Bool := false

/-- `ConfigOption.id_key_text`. -/
def id_key_text : String := "ID: "

/-- Lookup in the directive's parsed `self.options` dict (modelled as an
association list; Sphinx option parsing guarantees each key appears once). -/
def lookupOpt (options : List (String × String)) (k : String) : Option String :=
  (options.find? (fun p => p.1 == k)).map (fun p => p.2)

/-- The document nodes returned by `ConfigOption.run`, reduced to the data the
extension computes: the hidden target node (its `ids` list) and the
"configoption" container (key, raw short description, and the two-column field
rows in `optional_fields` order, each `(label ++ ": ", raw value)`). -/
inductive OutNode where
  | target (ids : List String)
  | configoption (key : String) (shortDesc : String) (rows : List (String × String))
  deriving DecidableEq, Repr

/-- `ConfigOption.run`: compute `scope` (the second positional argument when
given, else "server") and `targetID = scope + ":" + key`; if the mandatory
`summary` option is absent, log one warning and return no nodes, leaving the
registry untouched; otherwise build the display fragment, register the option
with the domain, and return `[targetNode, newNode]`.
Result: (returned nodes, logged warnings, updated registry). -/
def ConfigOption.run (docname : String) (registry : List Record)
    (arguments : List String) (options : List (String × String)) :
    List OutNode × List String × List Record :=
  let scope := arguments.getD 1 "server"
  let key := arguments.getD 0 ""
  let targetID := scope ++ ":" ++ key
  if (lookupOpt options shortdesc_key).isNone then
    ([],
     ["The option fields for the " ++ key
        ++ " option could not be parsed. No output was generated."],
     registry)
  else
    let rows :=
      (if has_id_repeat then [(id_key_text, key)] else []) ++
        optional_fields.filterMap
          (fun p => (lookupOpt options p.1).map (fun v => (p.2 ++ ": ", v)))
    ([OutNode.target [targetID],
      OutNode.configoption key ((lookupOpt options shortdesc_key).getD "") rows],
     [],
     ConfigDomain.add_option registry docname key scope)

/-- Membership of a character in a character list (models Python's
single-character substring test `c in s`). -/
def containsChar (c : Char) : List Char → Bool
  | [] => false
  | a :: as => a == c || containsChar c as

/-- The test `":" in target` of `ConfigDomain.resolve_xref`. -/
def hasScope (target : String) : Bool := containsChar ':' target.data

/-- The target rewriting at the start of `ConfigDomain.resolve_xref`:
`if ":" not in target: target = "server:" + target`. -/
def computeTarget (target : String) : String :=
  if hasScope target then target else "server:" ++ target

/-- The node built by `make_refnode(builder, fromdocname, todocname, targ,
child=nodes.literal(text=title))`, reduced to its data. -/
structure RefNode where
  fromdocname : String
  todocname : String
  targetid : String
  child : String
  deriving DecidableEq, Repr

/-- `ConfigDomain.resolve_xref`: default the scope to "server" when the target
has none, scan the registry for records whose anchor equals the computed
target and whose type is "option"; return a reference node for the first
match, or log one warning and return no node.
Result: (optional reference node, logged warnings). -/
def ConfigDomain.resolve_xref (registry : List Record) (fromdocname target : String) :
    Option RefNode × List String :=
  match registry.filter
      (fun r => r.anchor == computeTarget target && r.typ == "option") with
  | m :: _ => (some ⟨fromdocname, m.docname, m.anchor, m.name⟩, [])
  | [] =>
    (none,
     ["Could not find target " ++ computeTarget target ++ " in " ++ fromdocname])

/-- `ConfigDomain.resolve_any_xref`: returns `[]` unconditionally, without
consulting the registry. -/
def ConfigDomain.resolve_any_xref (_registry : List Record)
    (_fromdocname _target : String) : List RefNode :=
  []

lemma containsChar_append (c : Char) (l1 l2 : List Char) :
    containsChar c (l1 ++ l2) = (containsChar c l1 || containsChar c l2) := by
  induction l1 with
  | nil => simp [containsChar]
  | cons a as ih => simp [containsChar, ih, Bool.or_assoc]

lemma hasScope_server_append (t : String) : hasScope ("server:" ++ t) = true := by
  unfold hasScope
  rw [String.data_append, containsChar_append]
  rw [show containsChar ':' "server:".data = true from by decide]
  simp

lemma computeTarget_noscope {target : String} (h : hasScope target = false) :
    computeTarget target = computeTarget ("server:" ++ target) := by
  unfold computeTarget
  rw [h, hasScope_server_append]
  simp

/-- Claim C1: when the short-description field (`summary`) is present, running
the directive registers exactly one Option Record, equal to
`(key, key, "option", docname, scope + ":" + key, 0)`, where `scope` is the
second positional argument when given and `"server"` otherwise. -/
theorem run_registers_one_record (docname key : String) (rest : List String)
    (options : List (String × String)) (registry : List Record)
    (h : (lookupOpt options shortdesc_key).isSome = true) :
    (ConfigOption.run docname registry (key :: rest) options).2.2 =
      registry ++
        [⟨key, key, "option", docname, rest.headD "server" ++ ":" ++ key, 0⟩] := by
  obtain ⟨d, hd⟩ := Option.isSome_iff_exists.mp h
  unfold ConfigOption.run
  rw [hd]
  cases rest <;> simp [ConfigDomain.add_option]

/-- Witness for C1 at a concrete input. -/
theorem run_registers_one_record_witness :
    (ConfigOption.run "doc" [] ["k"] [("summary", "s")]).2.2 =
      [⟨"k", "k", "option", "doc", "server:k", 0⟩] :=
  (run_registers_one_record "doc" "k" [] [("summary", "s")] [] (by decide)).trans
    (by decide)

/-- Claim C2: when the mandatory short-description field (`summary`) is
missing, the directive emits exactly one warning identifying the offending
key, returns no output nodes (not even the target node), and leaves the
registry unchanged. -/
theorem run_missing_summary (docname key : String) (rest : List String)
    (options : List (String × String)) (registry : List Record)
    (h : lookupOpt options shortdesc_key = none) :
    ConfigOption.run docname registry (key :: rest) options =
      ([],
       ["The option fields for the " ++ key
          ++ " option could not be parsed. No output was generated."],
       registry) := by
  unfold ConfigOption.run
  rw [h]
  simp

/-- Witness for C2 at a concrete input. -/
theorem run_missing_summary_witness :
    ConfigOption.run "doc" [⟨"k", "k", "option", "doc", "server:k", 0⟩] ["badkey"]
        [("type", "t")] =
      ([],
       ["The option fields for the badkey option could not be parsed."
          ++ " No output was generated."],
       [⟨"k", "k", "option", "doc", "server:k", 0⟩]) :=
  (run_missing_summary "doc" "badkey" [] [("type", "t")]
      [⟨"k", "k", "option", "doc", "server:k", 0⟩] (by decide)).trans (by decide)

/-- Claim C3: resolving a target without a ":" separator is the same as
resolving `"server:" + target`; and whenever the filtered match list (records
of type "option" whose anchor equals the computed target, in registry
insertion order) is nonempty, resolution returns a link to the first match's
document and anchor, with that record's key as the link text, and no
warning. -/
theorem resolve_xref_found (registry : List Record) (fromdocname target : String) :
    (hasScope target = false →
      ConfigDomain.resolve_xref registry fromdocname target =
        ConfigDomain.resolve_xref registry fromdocname ("server:" ++ target)) ∧
    (∀ m ms,
      registry.filter
          (fun r => r.anchor == computeTarget target && r.typ == "option") =
        m :: ms →
      ConfigDomain.resolve_xref registry fromdocname target =
        (some ⟨fromdocname, m.docname, m.anchor, m.name⟩, [])) := by
  constructor
  · intro h
    unfold ConfigDomain.resolve_xref
    rw [computeTarget_noscope h]
  · intro m ms hm
    unfold ConfigDomain.resolve_xref
    rw [hm]

/-- Witness for C3 at a concrete input. -/
theorem resolve_xref_found_witness :
    ConfigDomain.resolve_xref [⟨"foo", "foo", "option", "d", "server:foo", 0⟩]
        "from" "foo" =
      ConfigDomain.resolve_xref [⟨"foo", "foo", "option", "d", "server:foo", 0⟩]
        "from" "server:foo" ∧
    ConfigDomain.resolve_xref [⟨"foo", "foo", "option", "d", "server:foo", 0⟩]
        "from" "foo" =
      (some ⟨"from", "d", "server:foo", "foo"⟩, []) :=
  ⟨(resolve_xref_found [⟨"foo", "foo", "option", "d", "server:foo", 0⟩]
      "from" "foo").1 (by decide),
   (resolve_xref_found [⟨"foo", "foo", "option", "d", "server:foo", 0⟩]
      "from" "foo").2 ⟨"foo", "foo", "option", "d", "server:foo", 0⟩ [] (by decide)⟩

/-- Claim C4: when no registered record of type "option" has an anchor equal
to the computed target, resolution returns no link and produces exactly one
warning naming the unresolved (computed) target and the referencing
document. -/
theorem resolve_xref_unresolved (registry : List Record) (fromdocname target : String)
    (h : registry.filter
        (fun r => r.anchor == computeTarget target && r.typ == "option") = []) :
    ConfigDomain.resolve_xref registry fromdocname target =
      (none,
       ["Could not find target " ++ computeTarget target ++ " in " ++ fromdocname]) := by
  unfold ConfigDomain.resolve_xref
  rw [h]

/-- Witness for C4 at a concrete input. -/
theorem resolve_xref_unresolved_witness :
    ConfigDomain.resolve_xref [⟨"foo", "foo", "option", "d", "server:foo", 0⟩]
        "from" "bar" =
      (none, ["Could not find target server:bar in from"]) :=
  (resolve_xref_unresolved [⟨"foo", "foo", "option", "d", "server:foo", 0⟩]
      "from" "bar" (by decide)).trans (by decide)

lemma merge_mem_left {x : Record} (other : List Record) (acc : List Record)
    (hx : x ∈ acc) :
    x ∈ other.foldl (fun acc opt => if opt ∈ acc then acc else acc ++ [opt]) acc := by
  induction other generalizing acc with
  | nil => simpa using hx
  | cons o os ih =>
    simp only [List.foldl_cons]
    apply ih
    by_cases h : o ∈ acc
    · simpa [h] using hx
    · simp [h, List.mem_append, hx]

lemma merge_mem_right {x : Record} {other : List Record} (acc : List Record)
    (hx : x ∈ other) :
    x ∈ other.foldl (fun acc opt => if opt ∈ acc then acc else acc ++ [opt]) acc := by
  induction other generalizing acc with
  | nil => simp at hx
  | cons o os ih =>
    simp only [List.foldl_cons]
    rcases List.mem_cons.mp hx with rfl | hmem
    · apply merge_mem_left
      by_cases h : x ∈ acc
      · simp [h]
      · simp [h]
    · exact ih _ hmem

lemma merge_of_subset {other : List Record} (acc : List Record)
    (h : ∀ x ∈ other, x ∈ acc) :
    other.foldl (fun acc opt => if opt ∈ acc then acc else acc ++ [opt]) acc = acc := by
  induction other generalizing acc with
  | nil => rfl
  | cons o os ih =>
    simp only [List.foldl_cons]
    rw [if_pos (h o (List.mem_cons_self o os))]
    exact ih acc (fun x hx => h x (List.mem_cons_of_mem _ hx))

/-- Claim C5: merging registry B into A and then merging B again into the
result yields the same registry as merging once — merge appends only records
not already present by full tuple equality, so re-merging adds nothing. -/
theorem merge_domaindata_idempotent (A B : List Record) :
    ConfigDomain.merge_domaindata (ConfigDomain.merge_domaindata A B) B =
      ConfigDomain.merge_domaindata A B := by
  unfold ConfigDomain.merge_domaindata
  exact merge_of_subset _ (fun x hx => merge_mem_right _ hx)

/-- Claim C10: the generic "any"-role resolver returns no link for every
registry, referencing document, and target. -/
theorem resolve_any_xref_empty (registry : List Record) (fromdocname target : String) :
    ConfigDomain.resolve_any_xref registry fromdocname target = [] :=
  rfl

/-- Code-point lexicographic comparison `a <= b` of Python strings, on
`String.data`. -/
def listCharLe : List Char → List Char → Bool
  | [], _ => true
  | _ :: _, [] => false
  | a :: as, b :: bs =>
    if a < b then true
    else if b < a then false
    else listCharLe as bs

/-- Python tuple comparison `a <= b` for pairs of strings (lexicographic). -/
def pairLeB (a b : String × String) : Bool :=
  if a.1 = b.1 then listCharLe a.2.data b.2.data
  else listCharLe a.1.data b.1.data

lemma listCharLe_total : ∀ as bs : List Char,
    listCharLe as bs = true ∨ listCharLe bs as = true
  | [], _ => Or.inl rfl
  | _ :: _, [] => Or.inr rfl
  | a :: as, b :: bs => by
    simp only [listCharLe]
    rcases lt_trichotomy a b with hab | hab | hab
    · left; rw [if_pos hab]
    · subst hab
      simp only [if_neg (lt_irrefl a)]
      exact listCharLe_total as bs
    · right; rw [if_pos hab]

lemma listCharLe_trans : ∀ as bs cs : List Char,
    listCharLe as bs = true → listCharLe bs cs = true → listCharLe as cs = true
  | [], _, _, _, _ => rfl
  | _ :: _, [], _, h1, _ => by simp [listCharLe] at h1
  | _ :: _, _ :: _, [], _, h2 => by simp [listCharLe] at h2
  | a :: as, b :: bs, c :: cs, h1, h2 => by
    simp only [listCharLe] at h1 h2 ⊢
    rcases lt_trichotomy a b with hab | hab | hab
    · rcases lt_trichotomy b c with hbc | hbc | hbc
      · rw [if_pos (lt_trans hab hbc)]
      · subst hbc; rw [if_pos hab]
      · rw [if_neg (lt_asymm hbc), if_pos hbc] at h2; exact absurd h2 (by simp)
    · subst hab
      rcases lt_trichotomy a c with hac | hac | hac
      · rw [if_pos hac]
      · subst hac
        rw [if_neg (lt_irrefl a), if_neg (lt_irrefl a)] at h1 h2 ⊢
        exact listCharLe_trans as bs cs h1 h2
      · rw [if_neg (lt_asymm hac), if_pos hac] at h2; exact absurd h2 (by simp)
    · rw [if_neg (lt_asymm hab), if_pos hab] at h1; exact absurd h1 (by simp)

lemma listCharLe_antisymm : ∀ as bs : List Char,
    listCharLe as bs = true → listCharLe bs as = true → as = bs
  | [], [], _, _ => rfl
  | [], _ :: _, _, h2 => by simp [listCharLe] at h2
  | _ :: _, [], h1, _ => by simp [listCharLe] at h1
  | a :: as, b :: bs, h1, h2 => by
    simp only [listCharLe] at h1 h2
    rcases lt_trichotomy a b with hab | hab | hab
    · rw [if_neg (lt_asymm hab), if_pos hab] at h2; exact absurd h2 (by simp)
    · subst hab
      rw [if_neg (lt_irrefl a), if_neg (lt_irrefl a)] at h1 h2
      rw [listCharLe_antisymm as bs h1 h2]
    · rw [if_neg (lt_asymm hab), if_pos hab] at h1; exact absurd h1 (by simp)

lemma pairLeB_total (a b : String × String) :
    pairLeB a b = true ∨ pairLeB b a = true := by
  unfold pairLeB
  by_cases h : a.1 = b.1
  · rw [if_pos h, if_pos h.symm]; exact listCharLe_total _ _
  · rw [if_neg h, if_neg (Ne.symm h)]; exact listCharLe_total _ _

lemma listCharLe_str_antisymm {a b : String} (h1 : listCharLe a.data b.data = true)
    (h2 : listCharLe b.data a.data = true) : a = b :=
  String.ext (listCharLe_antisymm _ _ h1 h2)

lemma pairLeB_trans {a b c : String × String} (h1 : pairLeB a b = true)
    (h2 : pairLeB b c = true) : pairLeB a c = true := by
  unfold pairLeB at h1 h2 ⊢
  by_cases hab : a.1 = b.1 <;> by_cases hbc : b.1 = c.1
  · rw [if_pos hab] at h1
    rw [if_pos hbc] at h2
    rw [if_pos (hab.trans hbc)]
    exact listCharLe_trans _ _ _ h1 h2
  · rw [if_pos hab] at h1
    rw [if_neg hbc] at h2
    have hac : a.1 ≠ c.1 := fun h => hbc (hab.symm.trans h)
    rw [if_neg hac, hab]
    exact h2
  · rw [if_neg hab] at h1
    rw [if_pos hbc] at h2
    have hac : a.1 ≠ c.1 := fun h => hab (h.trans hbc.symm)
    rw [if_neg hac, ← hbc]
    exact h1
  · rw [if_neg hab] at h1
    rw [if_neg hbc] at h2
    have hac : a.1 ≠ c.1 := by
      intro h
      rw [h] at h1
      exact hab (h.trans (listCharLe_str_antisymm h2 h1).symm)
    rw [if_neg hac]
    exact listCharLe_trans _ _ _ h1 h2

lemma pairLeB_antisymm {a b : String × String} (h1 : pairLeB a b = true)
    (h2 : pairLeB b a = true) : a = b := by
  unfold pairLeB at h1 h2
  by_cases hab : a.1 = b.1
  · rw [if_pos hab] at h1
    rw [if_pos hab.symm] at h2
    exact Prod.ext hab (listCharLe_str_antisymm h1 h2)
  · rw [if_neg hab] at h1
    rw [if_neg (Ne.symm hab)] at h2
    exact absurd (listCharLe_str_antisymm h1 h2) hab

/-- The sort key of `ConfigIndex.generate`:
`lambda option: (option[1], option[4])`, i.e. `(dispname, anchor)`. -/
def sortKey (r : Record) : String × String := (r.dispname, r.anchor)

/-- The comparison used by `sorted(options, key=...)` in
`ConfigIndex.generate`: records ordered by `(dispname, anchor)`. -/
def recordLe (a b : Record) : Prop := pairLeB (sortKey a) (sortKey b) = true

instance : DecidableRel recordLe := fun a b => by
  unfold recordLe; infer_instance

instance : IsTotal Record recordLe :=
  ⟨fun a b => pairLeB_total (sortKey a) (sortKey b)⟩

instance : IsTrans Record recordLe :=
  ⟨fun _ _ _ h1 h2 => pairLeB_trans h1 h2⟩

/-- `splitFirst sep l = some (before, after)` for the first occurrence of
`sep` in `l`, or `none` when `sep` does not occur. -/
def splitFirst (sep : Char) : List Char → Option (List Char × List Char)
  | [] => none
  | c :: cs =>
    if c = sep then some ([], cs)
    else (splitFirst sep cs).map (fun p => (c :: p.1, p.2))

/-- Python `s.partition(sep)` for a single-character separator: the triple
`(before, sep, after)` at the first occurrence, or `(s, "", "")` when `sep`
does not occur. -/
def pyPartition (s : String) (sep : Char) : String × String × String :=
  match splitFirst sep s.data with
  | none => (s, "", "")
  | some (a, b) => (⟨a⟩, String.singleton sep, ⟨b⟩)

/-- `scope = anchor.partition(":")[0].partition("-")` in
`ConfigIndex.generate`. -/
def scopeTriple (anchor : String) : String × String × String :=
  pyPartition (pyPartition anchor ':').1 '-'

/-- `fullname = (scope[0], dispname, docname, anchor)` in the first loop of
`ConfigIndex.generate`. -/
def fullnameOf (r : Record) : String × String × String × String :=
  ((scopeTriple r.anchor).1, r.dispname, r.docname, r.anchor)

/-- The first loop of `ConfigIndex.generate`, accumulating the `dispnames` and
`duplicates` sets (Python sets modelled as lists with membership-guarded
insertion; only membership of the result is ever used). -/
def dupLoop : List Record → List (String × String × String × String) →
    List (String × String × String × String) →
    List (String × String × String × String)
  | [], _, duplicates => duplicates
  | r :: rest, seen, duplicates =>
    if fullnameOf r ∈ seen then
      dupLoop rest seen
        (if fullnameOf r ∈ duplicates then duplicates else duplicates ++ [fullnameOf r])
    else dupLoop rest (seen ++ [fullnameOf r]) duplicates

/-- The `duplicates` set after the first loop of `ConfigIndex.generate`: the
fullnames occurring more than once in the (sorted) record list. -/
def computeDuplicates (options : List Record) :
    List (String × String × String × String) :=
  dupLoop options [] []

/-- `replaceAllAux fuel pat repl s`: replace each left-to-right,
non-overlapping occurrence of `pat` in `s` by `repl` (Python `str.replace`
restricted to a nonempty pattern); any `fuel ≥ s.length` gives the replacement
itself. -/
def replaceAllAux : Nat → List Char → List Char → List Char → List Char
  | _, _, _, [] => []
  | 0, _, _, s => s
  | fuel + 1, pat, repl, c :: cs =>
    if pat ≠ [] ∧ pat.isPrefixOf (c :: cs) then
      repl ++ replaceAllAux fuel pat repl (List.drop (pat.length - 1) cs)
    else
      c :: replaceAllAux fuel pat repl cs

/-- Python `s.replace(pat, repl)` (all occurrences; the patterns used by the
code are the fixed nonempty strings "<title>", "</title>" and the code-class
markup). -/
def pyReplace (s pat repl : String) : String :=
  ⟨replaceAllAux s.data.length pat.data repl.data s.data⟩

/-- `str(self.domain.env.titles.get(docname, ""))`: the environment's title
map, modelled as an association list from docname to the title node's string
form (e.g. "<title>Doc</title>"); missing documents give "". -/
def titleLookup (titles : List (String × String)) (docname : String) : String :=
  ((titles.find? (fun p => p.1 == docname)).map (fun p => p.2)).getD ""

/-- One index entry `new_line = (dispname, 0, docname, anchor, extra, "", "")`,
with Sphinx's index-entry field names. -/
structure Row where
  dispname : String
  subtype : Nat
  docname : String
  anchor : String
  extra : String
  qualifier : String
  descr : String
  deriving DecidableEq, Repr

/-- The `extra` text of one entry in the second loop of
`ConfigIndex.generate`: for a duplicated fullname, the document title with the
title tags stripped and — when the scope has a `-`-suffix — the xref code
class replaced and the suffix appended as inline code; for a non-duplicate,
the empty string. -/
def extraFor (dups : List (String × String × String × String))
    (titles : List (String × String)) (r : Record) : String :=
  let extra := titleLookup titles r.docname
  let scope := scopeTriple r.anchor
  if fullnameOf r ∈ dups then
    let extra := pyReplace (pyReplace extra "<title>" "") "</title>" ""
    if scope.2.2 ≠ "" then
      pyReplace extra "<code class=\"xref\">" "<code class=\"literal\">"
        ++ ": <code class=\"literal\">" ++ scope.2.2 ++ "</code>"
    else extra
  else ""

/-- The entry built for record `r` in the second loop. -/
def rowOf (dups : List (String × String × String × String))
    (titles : List (String × String)) (r : Record) : Row :=
  ⟨r.dispname, 0, r.docname, r.anchor, extraFor dups titles r, "", ""⟩

/-- `content[scope[0]].append(new_line)` guarded by
`if new_line not in content[scope[0]]`, on a `defaultdict(list)` modelled as
an association list in key-creation order. -/
def addRow : List (String × List Row) → String → Row → List (String × List Row)
  | [], k, row => [(k, [row])]
  | (k', rows) :: rest, k, row =>
    if k' = k then
      if row ∈ rows then (k', rows) :: rest
      else (k', rows ++ [row]) :: rest
    else (k', rows) :: addRow rest k row

/-- The second loop of `ConfigIndex.generate`: skip records whose document has
no (nonempty) registered title, build each survivor's entry and append it to
its `scope[0]` group when not already present there. -/
def buildContent (dups : List (String × String × String × String))
    (titles : List (String × String)) :
    List Record → List (String × List Row) → List (String × List Row)
  | [], content => content
  | r :: rest, content =>
    if titleLookup titles r.docname = "" then buildContent dups titles rest content
    else
      buildContent dups titles rest
        (addRow content (scopeTriple r.anchor).1 (rowOf dups titles r))

/-- The comparison of the final `sorted(content.items())`: items compared by
key (group keys are unique, so Python never compares the list values). -/
def groupLe (a b : String × List Row) : Prop := listCharLe a.1.data b.1.data = true

instance : DecidableRel groupLe := fun a b => by
  unfold groupLe; infer_instance

instance : IsTotal (String × List Row) groupLe :=
  ⟨fun a b => listCharLe_total a.1.data b.1.data⟩

instance : IsTrans (String × List Row) groupLe :=
  ⟨fun _ _ _ h1 h2 => listCharLe_trans _ _ _ h1 h2⟩

/-- `ConfigIndex.generate`, as a function of the registry and of the
environment's title map.  Result: ((the grouped content, the constant `True`
collapse flag), logged warnings — `generate` never logs, so the warning list
is empty by construction). -/
def ConfigIndex.generate (options : List Record) (titles : List (String × String)) :
    (List (String × List Row) × Bool) × List String :=
  let options := List.insertionSort recordLe options
  let dups := computeDuplicates options
  let content := buildContent dups titles options []
  ((List.insertionSort groupLe content, true), [])

/-- Modelled from the spec text of claim C6: the comparison "by the pair
`(scope, key)`", with `scope` the part of the record's anchor before ":" and
`key` the record's key field.  Used only to compare the claimed sort with the
code's sort. -/
def specC6Le (a b : Record) : Prop :=
  pairLeB ((pyPartition a.anchor ':').1, a.name) ((pyPartition b.anchor ':').1, b.name) = true

instance : DecidableRel specC6Le := fun a b => by
  unfold specC6Le; infer_instance

/-- Modelled from the spec text of claim C6: `ConfigIndex.generate` with the
record sort replaced by the claimed `(scope, key)` sort, the rest of the
pipeline unchanged. -/
def specC6_generate (options : List Record) (titles : List (String × String)) :
    (List (String × List Row) × Bool) × List String :=
  let options := List.insertionSort specC6Le options
  let dups := computeDuplicates options
  let content := buildContent dups titles options []
  ((List.insertionSort groupLe content, true), [])

/-- Modelled from the spec text of claim C7: "scope_prefix is the text of the
record's anchor before the first `-`". -/
def specC7_scopePrefixOf (anchor : String) : String := (pyPartition anchor '-').1

/-- Modelled from the spec text of claim C7: "scope_suffix is the text of the
record's anchor after the first `-`". -/
def specC7_scopeSuffixOf (anchor : String) : String := (pyPartition anchor '-').2.2

/-- The `(dispname, anchor)` comparison between built index entries (the data
the record sort key is preserved into). -/
def rowLe (a b : Row) : Prop :=
  pairLeB (a.dispname, a.anchor) (b.dispname, b.anchor) = true

instance : DecidableRel rowLe := fun a b => by
  unfold rowLe; infer_instance

lemma addRow_keys : ∀ (content : List (String × List Row)) (k : String) (row : Row),
    (addRow content k row).map Prod.fst = content.map Prod.fst ∨
    ((addRow content k row).map Prod.fst = content.map Prod.fst ++ [k] ∧
      k ∉ content.map Prod.fst)
  | [], k, row => Or.inr ⟨rfl, by simp⟩
  | (k', rows) :: rest, k, row => by
    simp only [addRow]
    by_cases h : k' = k
    · rw [if_pos h]
      by_cases h2 : row ∈ rows
      · rw [if_pos h2]; left; rfl
      · rw [if_neg h2]; left; rfl
    · rw [if_neg h]
      rcases addRow_keys rest k row with h1 | ⟨h1, h2⟩
      · left; simp [h1]
      · right
        constructor
        · simp [h1]
        · simp only [List.map_cons, List.mem_cons, not_or]
          exact ⟨fun hk => h hk.symm, h2⟩

lemma addRow_nodup (content : List (String × List Row)) (k : String) (row : Row)
    (h : (content.map Prod.fst).Nodup) :
    ((addRow content k row).map Prod.fst).Nodup := by
  rcases addRow_keys content k row with h1 | ⟨h1, h2⟩
  · rw [h1]; exact h
  · rw [h1]
    simp [List.nodup_append, h, h2]

lemma buildContent_nodup (dups : List (String × String × String × String))
    (titles : List (String × String)) :
    ∀ (recs : List Record) (content : List (String × List Row)),
    (content.map Prod.fst).Nodup →
    ((buildContent dups titles recs content).map Prod.fst).Nodup
  | [], _, h => h
  | r :: rest, content, h => by
    simp only [buildContent]
    by_cases ht : titleLookup titles r.docname = ""
    · rw [if_pos ht]
      exact buildContent_nodup dups titles rest content h
    · rw [if_neg ht]
      exact buildContent_nodup dups titles rest _ (addRow_nodup _ _ _ h)

lemma addRow_bound (P : Row → Prop) :
    ∀ (content : List (String × List Row)) (k : String) (row : Row),
    (∀ p ∈ content, ∀ x ∈ p.2, P x) → P row →
    ∀ p ∈ addRow content k row, ∀ x ∈ p.2, P x
  | [], k, row, _, hr => by
    intro p hp x hx
    simp only [addRow, List.mem_singleton] at hp
    subst hp
    simp only [List.mem_singleton] at hx
    subst hx
    exact hr
  | (k', rows) :: rest, k, row, hc, hr => by
    intro p hp x hx
    simp only [addRow] at hp
    by_cases h : k' = k
    · rw [if_pos h] at hp
      by_cases h2 : row ∈ rows
      · rw [if_pos h2] at hp
        exact hc p hp x hx
      · rw [if_neg h2] at hp
        rcases List.mem_cons.mp hp with rfl | hmem
        · rcases List.mem_append.mp hx with hx1 | hx1
          · exact hc (k', rows) (List.mem_cons_self _ _) x hx1
          · rw [List.mem_singleton.mp hx1]
            exact hr
        · exact hc p (List.mem_cons_of_mem _ hmem) x hx
    · rw [if_neg h] at hp
      rcases List.mem_cons.mp hp with rfl | hmem
      · exact hc (k', rows) (List.mem_cons_self _ _) x hx
      · exact addRow_bound P rest k row
          (fun q hq y hy => hc q (List.mem_cons_of_mem _ hq) y hy) hr p hmem x hx

lemma addRow_sorted (content : List (String × List Row)) (k : String) (row : Row)
    (h1 : ∀ p ∈ content, p.2.Pairwise rowLe)
    (h2 : ∀ p ∈ content, ∀ x ∈ p.2, rowLe x row) :
    ∀ p ∈ addRow content k row, p.2.Pairwise rowLe := by
  induction content with
  | nil =>
    intro p hp
    simp only [addRow, List.mem_singleton] at hp
    subst hp
    simp
  | cons q rest ih =>
    obtain ⟨k', rows⟩ := q
    intro p hp
    simp only [addRow] at hp
    by_cases h : k' = k
    · rw [if_pos h] at hp
      by_cases hmem : row ∈ rows
      · rw [if_pos hmem] at hp
        exact h1 p hp
      · rw [if_neg hmem] at hp
        rcases List.mem_cons.mp hp with rfl | hrest
        · rw [List.pairwise_append]
          refine ⟨h1 (k', rows) (List.mem_cons_self _ _), by simp, ?_⟩
          intro a ha b hb
          rw [List.mem_singleton.mp hb]
          exact h2 (k', rows) (List.mem_cons_self _ _) a ha
        · exact h1 p (List.mem_cons_of_mem _ hrest)
    · rw [if_neg h] at hp
      rcases List.mem_cons.mp hp with rfl | hrest
      · exact h1 (k', rows) (List.mem_cons_self _ _)
      · exact ih (fun q hq => h1 q (List.mem_cons_of_mem _ hq))
          (fun q hq => h2 q (List.mem_cons_of_mem _ hq)) p hrest

lemma rowKey_rowOf (dups : List (String × String × String × String))
    (titles : List (String × String)) (r : Record) :
    ((rowOf dups titles r).dispname, (rowOf dups titles r).anchor) = sortKey r :=
  rfl

lemma buildContent_sorted (dups : List (String × String × String × String))
    (titles : List (String × String)) :
    ∀ (recs : List Record) (content : List (String × List Row)),
    recs.Pairwise recordLe →
    (∀ p ∈ content, p.2.Pairwise rowLe) →
    (∀ p ∈ content, ∀ x ∈ p.2,
       ∀ r ∈ recs, pairLeB (x.dispname, x.anchor) (sortKey r) = true) →
    ∀ p ∈ buildContent dups titles recs content, p.2.Pairwise rowLe
  | [], _, _, h1, _ => h1
  | r :: rest, content, hs, h1, h2 => by
    have hs1 : rest.Pairwise recordLe := hs.tail
    have hhead : ∀ x ∈ rest, recordLe r x := fun x hx =>
      List.rel_of_pairwise_cons hs hx
    simp only [buildContent]
    by_cases ht : titleLookup titles r.docname = ""
    · rw [if_pos ht]
      exact buildContent_sorted dups titles rest content hs1 h1
        (fun p hp x hx q hq => h2 p hp x hx q (List.mem_cons_of_mem _ hq))
    · rw [if_neg ht]
      apply buildContent_sorted dups titles rest _ hs1
      · apply addRow_sorted _ _ _ h1
        intro p hp x hx
        show pairLeB (x.dispname, x.anchor) _ = true
        rw [rowKey_rowOf]
        exact h2 p hp x hx r (List.mem_cons_self _ _)
      · apply addRow_bound
          (fun x => ∀ q ∈ rest, pairLeB (x.dispname, x.anchor) (sortKey q) = true)
        · intro p hp x hx q hq
          exact h2 p hp x hx q (List.mem_cons_of_mem _ hq)
        · intro q hq
          rw [rowKey_rowOf]
          exact hhead q hq

lemma addRow_good :
    ∀ (content : List (String × List Row)) (k : String) (row : Row),
    (∀ p ∈ content, ∀ x ∈ p.2, p.1 = (scopeTriple x.anchor).1) →
    k = (scopeTriple row.anchor).1 →
    ∀ p ∈ addRow content k row, ∀ x ∈ p.2, p.1 = (scopeTriple x.anchor).1
  | [], _, _, _, hk => by
    intro p hp x hx
    simp only [addRow, List.mem_singleton] at hp
    subst hp
    simp only [List.mem_singleton] at hx
    subst hx
    exact hk
  | (k', rows) :: rest, k, row, hc, hk => by
    intro p hp x hx
    simp only [addRow] at hp
    by_cases h : k' = k
    · rw [if_pos h] at hp
      by_cases h2 : row ∈ rows
      · rw [if_pos h2] at hp
        exact hc p hp x hx
      · rw [if_neg h2] at hp
        rcases List.mem_cons.mp hp with rfl | hmem
        · rcases List.mem_append.mp hx with hx1 | hx1
          · exact hc (k', rows) (List.mem_cons_self _ _) x hx1
          · rw [List.mem_singleton.mp hx1]
            exact h.trans hk
        · exact hc p (List.mem_cons_of_mem _ hmem) x hx
    · rw [if_neg h] at hp
      rcases List.mem_cons.mp hp with rfl | hmem
      · exact hc (k', rows) (List.mem_cons_self _ _) x hx
      · exact addRow_good rest k row
          (fun q hq y hy => hc q (List.mem_cons_of_mem _ hq) y hy) hk p hmem x hx

lemma buildContent_good (dups : List (String × String × String × String))
    (titles : List (String × String)) :
    ∀ (recs : List Record) (content : List (String × List Row)),
    (∀ p ∈ content, ∀ x ∈ p.2, p.1 = (scopeTriple x.anchor).1) →
    ∀ p ∈ buildContent dups titles recs content, ∀ x ∈ p.2,
      p.1 = (scopeTriple x.anchor).1
  | [], _, h => h
  | r :: rest, content, h => by
    simp only [buildContent]
    by_cases ht : titleLookup titles r.docname = ""
    · rw [if_pos ht]
      exact buildContent_good dups titles rest content h
    · rw [if_neg ht]
      exact buildContent_good dups titles rest _ (addRow_good content _ _ h rfl)

lemma buildContent_titled (dups : List (String × String × String × String))
    (titles : List (String × String)) :
    ∀ (recs : List Record) (content : List (String × List Row)),
    (∀ p ∈ content, ∀ x ∈ p.2, titleLookup titles x.docname ≠ "") →
    ∀ p ∈ buildContent dups titles recs content, ∀ x ∈ p.2,
      titleLookup titles x.docname ≠ ""
  | [], _, h => h
  | r :: rest, content, h => by
    simp only [buildContent]
    by_cases ht : titleLookup titles r.docname = ""
    · rw [if_pos ht]
      exact buildContent_titled dups titles rest content h
    · rw [if_neg ht]
      exact buildContent_titled dups titles rest _
        (addRow_bound (fun x => titleLookup titles x.docname ≠ "") content _ _ h ht)

lemma addRow_self : ∀ (content : List (String × List Row)) (k : String) (row : Row),
    ∃ p ∈ addRow content k row, row ∈ p.2
  | [], k, row => ⟨(k, [row]), by simp [addRow]⟩
  | (k', rows) :: rest, k, row => by
    simp only [addRow]
    by_cases h : k' = k
    · rw [if_pos h]
      by_cases h2 : row ∈ rows
      · rw [if_pos h2]
        exact ⟨(k', rows), List.mem_cons_self _ _, h2⟩
      · rw [if_neg h2]
        exact ⟨(k', rows ++ [row]), List.mem_cons_self _ _, by simp⟩
    · rw [if_neg h]
      obtain ⟨p, hp, hmem⟩ := addRow_self rest k row
      exact ⟨p, List.mem_cons_of_mem _ hp, hmem⟩

lemma addRow_mono {row : Row} :
    ∀ (content : List (String × List Row)) (k' : String) (row' : Row),
    (∃ p ∈ content, row ∈ p.2) → ∃ p ∈ addRow content k' row', row ∈ p.2
  | [], _, _, h => by
    obtain ⟨p, hp, _⟩ := h
    simp at hp
  | (k0, rows) :: rest, k', row', h => by
    obtain ⟨p, hp, hmem⟩ := h
    simp only [addRow]
    by_cases hk : k0 = k'
    · rw [if_pos hk]
      by_cases h2 : row' ∈ rows
      · rw [if_pos h2]
        exact ⟨p, hp, hmem⟩
      · rw [if_neg h2]
        rcases List.mem_cons.mp hp with rfl | hrest
        · exact ⟨(k0, rows ++ [row']), List.mem_cons_self _ _,
            List.mem_append.mpr (Or.inl hmem)⟩
        · exact ⟨p, List.mem_cons_of_mem _ hrest, hmem⟩
    · rw [if_neg hk]
      rcases List.mem_cons.mp hp with rfl | hrest
      · exact ⟨(k0, rows), List.mem_cons_self _ _, hmem⟩
      · obtain ⟨q, hq, hqm⟩ := addRow_mono rest k' row' ⟨p, hrest, hmem⟩
        exact ⟨q, List.mem_cons_of_mem _ hq, hqm⟩

lemma buildContent_mono (dups : List (String × String × String × String))
    (titles : List (String × String)) {row : Row} :
    ∀ (recs : List Record) (content : List (String × List Row)),
    (∃ p ∈ content, row ∈ p.2) →
    ∃ p ∈ buildContent dups titles recs content, row ∈ p.2
  | [], _, h => h
  | r :: rest, content, h => by
    simp only [buildContent]
    by_cases ht : titleLookup titles r.docname = ""
    · rw [if_pos ht]
      exact buildContent_mono dups titles rest content h
    · rw [if_neg ht]
      exact buildContent_mono dups titles rest _ (addRow_mono content _ _ h)

lemma buildContent_retains (dups : List (String × String × String × String))
    (titles : List (String × String)) :
    ∀ (recs : List Record) (content : List (String × List Row)) (r : Record),
    r ∈ recs → titleLookup titles r.docname ≠ "" →
    ∃ p ∈ buildContent dups titles recs content, rowOf dups titles r ∈ p.2
  | [], _, r, hr, _ => by simp at hr
  | r0 :: rest, content, r, hr, ht => by
    simp only [buildContent]
    rcases List.mem_cons.mp hr with rfl | hrest
    · rw [if_neg ht]
      exact buildContent_mono dups titles rest _ (addRow_self content _ _)
    · by_cases ht0 : titleLookup titles r0.docname = ""
      · rw [if_pos ht0]
        exact buildContent_retains dups titles rest content r hrest ht
      · rw [if_neg ht0]
        exact buildContent_retains dups titles rest _ r hrest ht

lemma eq_of_perm_of_pairwise {α : Type} {R : α → α → Prop} :
    ∀ {l1 l2 : List α}, l1.Perm l2 → l1.Pairwise R → l2.Pairwise R →
      (∀ a ∈ l1, ∀ b ∈ l1, R a b → R b a → a = b) → l1 = l2
  | [], l2, hp, _, _, _ => (List.Perm.eq_nil hp.symm).symm
  | a :: t1, l2, hp, h1, h2, hA => by
    cases l2 with
    | nil => exact List.Perm.eq_nil hp
    | cons b t2 =>
      have heq : a = b := by
        have hab : a ∈ b :: t2 := hp.subset (List.mem_cons_self _ _)
        have hba : b ∈ a :: t1 := hp.symm.subset (List.mem_cons_self _ _)
        rcases List.mem_cons.mp hab with h | ha2
        · exact h
        rcases List.mem_cons.mp hba with h | hb1
        · exact h.symm
        exact hA a (List.mem_cons_self _ _) b (List.mem_cons_of_mem _ hb1)
          (List.rel_of_pairwise_cons h1 hb1) (List.rel_of_pairwise_cons h2 ha2)
      subst heq
      have ht : t1 = t2 :=
        eq_of_perm_of_pairwise hp.cons_inv h1.of_cons h2.of_cons
          (fun x hx y hy => hA x (List.mem_cons_of_mem _ hx) y (List.mem_cons_of_mem _ hy))
      rw [ht]

lemma insertionSort_eq_of_perm {l1 l2 : List Record} (hp : l1.Perm l2)
    (hk : ∀ a ∈ l1, ∀ b ∈ l1, sortKey a = sortKey b → a = b) :
    List.insertionSort recordLe l1 = List.insertionSort recordLe l2 := by
  have p1 := List.perm_insertionSort recordLe l1
  have p2 := List.perm_insertionSort recordLe l2
  apply eq_of_perm_of_pairwise ((p1.trans hp).trans p2.symm)
  · exact List.sorted_insertionSort recordLe l1
  · exact List.sorted_insertionSort recordLe l2
  · intro a ha b hb hab hba
    exact hk a (p1.subset ha) b (p1.subset hb) (pairLeB_antisymm hab hba)

/-- Counterexample to claim C6: `ConfigIndex.generate` does not sort the
records by `(scope, key)` — it sorts by `(dispname, anchor)`.  With two
records of scope prefix "db" whose key order and scope order disagree, the
code and the claimed sort produce the index groups in different row order. -/
theorem generate_sort_counterexample :
    ConfigIndex.generate
        [⟨"a", "a", "option", "d", "db-b:a", 0⟩, ⟨"m", "m", "option", "d", "db-a:m", 0⟩]
        [("d", "<title>T</title>")] ≠
      specC6_generate
        [⟨"a", "a", "option", "d", "db-b:a", 0⟩, ⟨"m", "m", "option", "d", "db-a:m", 0⟩]
        [("d", "<title>T</title>")] := by
  decide

/-- Claim C6 (amended): index generation sorts the records by
`(dispname, anchor)` — key first, full anchor as tie-break — so the produced
index lists its groups in strictly increasing lexical order of group key, and
within each group the entries appear sorted by `(dispname, anchor)`. -/
theorem generate_groups_sorted (options : List Record) (titles : List (String × String)) :
    List.Pairwise (fun g h => groupLe g h ∧ g.1 ≠ h.1)
      (ConfigIndex.generate options titles).1.1 ∧
    ∀ g ∈ (ConfigIndex.generate options titles).1.1, g.2.Pairwise rowLe := by
  constructor
  · have hnd := buildContent_nodup
      (computeDuplicates (List.insertionSort recordLe options)) titles
      (List.insertionSort recordLe options) [] (by simp)
    have hperm := List.perm_insertionSort groupLe
      (buildContent (computeDuplicates (List.insertionSort recordLe options)) titles
        (List.insertionSort recordLe options) [])
    have hnd2 := (hperm.map Prod.fst).nodup_iff.mpr hnd
    have hne : List.Pairwise (fun g h : String × List Row => g.1 ≠ h.1)
        (List.insertionSort groupLe
          (buildContent (computeDuplicates (List.insertionSort recordLe options)) titles
            (List.insertionSort recordLe options) [])) :=
      List.pairwise_map.mp hnd2
    have hsorted := List.sorted_insertionSort groupLe
      (buildContent (computeDuplicates (List.insertionSort recordLe options)) titles
        (List.insertionSort recordLe options) [])
    exact hsorted.and hne
  · intro g hg
    have hg2 : g ∈ buildContent (computeDuplicates (List.insertionSort recordLe options))
        titles (List.insertionSort recordLe options) [] :=
      (List.perm_insertionSort groupLe _).subset hg
    exact buildContent_sorted (computeDuplicates (List.insertionSort recordLe options))
      titles (List.insertionSort recordLe options) []
      (List.sorted_insertionSort recordLe options) (by simp) (by simp) g hg2

/-- Witness for the amended C6 at a concrete input. -/
theorem generate_groups_sorted_witness :
    List.Pairwise (fun g h => groupLe g h ∧ g.1 ≠ h.1)
      (ConfigIndex.generate [⟨"k", "k", "option", "d", "server:k", 0⟩]
        [("d", "<title>T</title>")]).1.1 ∧
    (("server", [(⟨"k", 0, "d", "server:k", "", "", ""⟩ : Row)]) :
        String × List Row).2.Pairwise rowLe :=
  ⟨(generate_groups_sorted [⟨"k", "k", "option", "d", "server:k", 0⟩]
      [("d", "<title>T</title>")]).1,
   (generate_groups_sorted [⟨"k", "k", "option", "d", "server:k", 0⟩]
      [("d", "<title>T</title>")]).2
     ("server", [(⟨"k", 0, "d", "server:k", "", "", ""⟩ : Row)]) (by decide)⟩

/-- Counterexample to claim C7: the grouping key is not the text of the
anchor before the first "-".  For the anchor "server:my-opt" (a key containing
"-" in the default scope) the code groups under "server", while the claimed
scope_prefix is "server:my" and the claimed scope_suffix is "opt" (the code
computes no suffix at all for this anchor). -/
theorem generate_prefix_counterexample :
    ((ConfigIndex.generate [⟨"my-opt", "my-opt", "option", "d", "server:my-opt", 0⟩]
        [("d", "<title>T</title>")]).1.1.map Prod.fst = ["server"]) ∧
    specC7_scopePrefixOf "server:my-opt" = "server:my" ∧
    specC7_scopeSuffixOf "server:my-opt" = "opt" ∧
    (scopeTriple "server:my-opt").1 = "server" ∧
    (scopeTriple "server:my-opt").2.2 = "" ∧
    ("server" : String) ≠ "server:my" := by
  refine ⟨by decide, by decide, by decide, by decide, by decide, by decide⟩

/-- Claim C7 (amended): index generation partitions the part of the anchor
before the first ":" at its first "-": the grouping key of every produced
entry is `(scopeTriple anchor).1`, and for a duplicated record whose scope has
a "-"-suffix the extra text ends with that suffix rendered as inline code. -/
theorem generate_scope_grouping (options : List Record)
    (titles : List (String × String)) :
    (∀ g ∈ (ConfigIndex.generate options titles).1.1, ∀ row ∈ g.2,
        g.1 = (scopeTriple row.anchor).1) ∧
    (∀ dups tls r, fullnameOf r ∈ dups → (scopeTriple r.anchor).2.2 ≠ "" →
        ∃ s, extraFor dups tls r =
          s ++ ": <code class=\"literal\">" ++ (scopeTriple r.anchor).2.2 ++ "</code>") := by
  constructor
  · intro g hg row hrow
    have hg2 : g ∈ buildContent (computeDuplicates (List.insertionSort recordLe options))
        titles (List.insertionSort recordLe options) [] :=
      (List.perm_insertionSort groupLe _).subset hg
    exact buildContent_good (computeDuplicates (List.insertionSort recordLe options))
      titles (List.insertionSort recordLe options) [] (by simp) g hg2 row hrow
  · intro dups tls r hdup hsuf
    refine ⟨pyReplace (pyReplace (pyReplace (titleLookup tls r.docname) "<title>" "")
      "</title>" "") "<code class=\"xref\">" "<code class=\"literal\">", ?_⟩
    simp only [extraFor]
    rw [if_pos hdup, if_pos hsuf]

/-- Witness for the amended C7 at a concrete input. -/
theorem generate_scope_grouping_witness :
    ("server" : String) = (scopeTriple "server:k").1 ∧
    ∃ s, extraFor [("db", "k", "d", "db-a:k")] [("d", "<title>T</title>")]
        ⟨"k", "k", "option", "d", "db-a:k", 0⟩ =
      s ++ ": <code class=\"literal\">" ++ (scopeTriple "db-a:k").2.2 ++ "</code>" :=
  ⟨(generate_scope_grouping [⟨"k", "k", "option", "d", "server:k", 0⟩]
      [("d", "<title>T</title>")]).1
      ("server", [(⟨"k", 0, "d", "server:k", "", "", ""⟩ : Row)]) (by decide)
      ⟨"k", 0, "d", "server:k", "", "", ""⟩ (by decide),
   (generate_scope_grouping [] []).2 [("db", "k", "d", "db-a:k")]
      [("d", "<title>T</title>")] ⟨"k", "k", "option", "d", "db-a:k", 0⟩
      (by decide) (by decide)⟩

/-- Claim C8: index generation silently drops every record whose declaring
document has no registered (nonempty) title: it logs no warning, every
produced entry's document has a title, and every record whose document has a
title contributes its entry to some group. -/
theorem generate_drops_untitled (options : List Record)
    (titles : List (String × String)) :
    (ConfigIndex.generate options titles).2 = [] ∧
    (∀ g ∈ (ConfigIndex.generate options titles).1.1, ∀ row ∈ g.2,
        titleLookup titles row.docname ≠ "") ∧
    (∀ r ∈ options, titleLookup titles r.docname ≠ "" →
      ∃ g ∈ (ConfigIndex.generate options titles).1.1,
        rowOf (computeDuplicates (List.insertionSort recordLe options)) titles r ∈ g.2) := by
  refine ⟨rfl, ?_, ?_⟩
  · intro g hg row hrow
    have hg2 : g ∈ buildContent (computeDuplicates (List.insertionSort recordLe options))
        titles (List.insertionSort recordLe options) [] :=
      (List.perm_insertionSort groupLe _).subset hg
    exact buildContent_titled (computeDuplicates (List.insertionSort recordLe options))
      titles (List.insertionSort recordLe options) [] (by simp) g hg2 row hrow
  · intro r hr ht
    have hr2 : r ∈ List.insertionSort recordLe options :=
      (List.perm_insertionSort recordLe options).mem_iff.mpr hr
    obtain ⟨p, hp, hmem⟩ := buildContent_retains
      (computeDuplicates (List.insertionSort recordLe options)) titles
      (List.insertionSort recordLe options) [] r hr2 ht
    exact ⟨p, (List.perm_insertionSort groupLe _).mem_iff.mpr hp, hmem⟩

/-- Witness for C8 at a concrete input. -/
theorem generate_drops_untitled_witness :
    (ConfigIndex.generate [⟨"k", "k", "option", "d", "server:k", 0⟩]
        [("d", "<title>T</title>")]).2 = [] ∧
    ∃ g ∈ (ConfigIndex.generate [⟨"k", "k", "option", "d", "server:k", 0⟩]
        [("d", "<title>T</title>")]).1.1,
      rowOf (computeDuplicates
          (List.insertionSort recordLe [⟨"k", "k", "option", "d", "server:k", 0⟩]))
        [("d", "<title>T</title>")] ⟨"k", "k", "option", "d", "server:k", 0⟩ ∈ g.2 :=
  ⟨(generate_drops_untitled [⟨"k", "k", "option", "d", "server:k", 0⟩]
      [("d", "<title>T</title>")]).1,
   (generate_drops_untitled [⟨"k", "k", "option", "d", "server:k", 0⟩]
      [("d", "<title>T</title>")]).2.2
     ⟨"k", "k", "option", "d", "server:k", 0⟩ (by decide) (by decide)⟩

/-- Counterexample to claim C9: index generation is not invariant under
permuting the registration order.  Two distinct records sharing the sort key
`(dispname, anchor)` (same key and anchor, different documents) keep their
registration order through the stable sort, so the two orders produce the
same group with its two rows swapped. -/
theorem generate_order_dependent :
    ([⟨"a", "a", "option", "d2", "s:a", 0⟩, ⟨"a", "a", "option", "d1", "s:a", 0⟩] :
        List Record).Perm
      [⟨"a", "a", "option", "d1", "s:a", 0⟩, ⟨"a", "a", "option", "d2", "s:a", 0⟩] ∧
    ConfigIndex.generate
        [⟨"a", "a", "option", "d1", "s:a", 0⟩, ⟨"a", "a", "option", "d2", "s:a", 0⟩]
        [("d1", "<title>T1</title>"), ("d2", "<title>T2</title>")] ≠
      ConfigIndex.generate
        [⟨"a", "a", "option", "d2", "s:a", 0⟩, ⟨"a", "a", "option", "d1", "s:a", 0⟩]
        [("d1", "<title>T1</title>"), ("d2", "<title>T2</title>")] :=
  ⟨List.Perm.swap _ _ _, by decide⟩

/-- Claim C9 (amended): index generation is invariant under permuting the
registration order whenever distinct records have distinct sort keys
`(dispname, anchor)` — the case a permutation can distinguish is exactly two
distinct records sharing a sort key. -/
theorem generate_perm_invariant (l1 l2 : List Record) (titles : List (String × String))
    (hp : l1.Perm l2)
    (hk : ∀ a ∈ l1, ∀ b ∈ l1, sortKey a = sortKey b → a = b) :
    ConfigIndex.generate l1 titles = ConfigIndex.generate l2 titles := by
  unfold ConfigIndex.generate
  rw [insertionSort_eq_of_perm hp hk]

/-- Witness for the amended C9 at a concrete input. -/
theorem generate_perm_invariant_witness :
    ConfigIndex.generate
        [⟨"a", "a", "option", "d", "server:a", 0⟩, ⟨"b", "b", "option", "d", "server:b", 0⟩]
        [("d", "<title>T</title>")] =
      ConfigIndex.generate
        [⟨"b", "b", "option", "d", "server:b", 0⟩, ⟨"a", "a", "option", "d", "server:a", 0⟩]
        [("d", "<title>T</title>")] :=
  generate_perm_invariant _ _ _ (List.Perm.swap _ _ _) (by decide)
